import Mathlib

/-!
# Verification of the Open3D-ML augmentation core

Shallow embedding of `ml3d/datasets/augment/augmentation.py` (the
`SemsegAugmentation` and `ObjdetAugmentation` classes) and of
`ml3d/vis/boundingbox.py` (`BoundingBox3D`).  Numeric arrays are modelled
over `ℚ` (exact arithmetic in place of float32); an `N×3` point cloud is a
`List (Fin 3 → ℚ)`.  Randomness drawn inside the Python functions
(`np.random.rand`, `np.random.randn`) is passed in explicitly as
parameters, and the trigonometric values the source computes from a random
angle are passed in already evaluated, keeping every definition executable.
-/

/-- A 3-D point (one row of an `N×3` numpy array). -/
abbrev Pt3 : Type := Fin 3 → ℚ

/-- Per-axis column of values: `l[:, a]` for an `N×d` array. -/
def axisVals {d : ℕ} (l : List (Fin d → ℚ)) (a : Fin d) : List ℚ :=
  l.map (fun p => p a)

/-- `numpy`'s `arr.max(0)` on one column: maximum of a list (0 on empty,
where numpy would error; callers require nonempty clouds). -/
def vmax : List ℚ → ℚ
  | [] => 0
  | x :: xs => xs.foldl max x

/-- `numpy`'s `arr.min(0)` on one column. -/
def vmin : List ℚ → ℚ
  | [] => 0
  | x :: xs => xs.foldl min x

/-- `numpy`'s `arr.mean(0)` on column `a`: sum divided by row count. -/
def meanAxis {d : ℕ} (l : List (Fin d → ℚ)) (a : Fin d) : ℚ :=
  (axisVals l a).sum / l.length

/-- `arr -= arr.mean(0)`: subtract the per-axis mean from every row. -/
def recenter {d : ℕ} (l : List (Fin d → ℚ)) : List (Fin d → ℚ) :=
  l.map (fun p a => p a - meanAxis l a)

/-- Per-axis extent `arr.max(0)[a] - arr.min(0)[a]`. -/
def extentAxis {d : ℕ} (l : List (Fin d → ℚ)) (a : Fin d) : ℚ :=
  vmax (axisVals l a) - vmin (axisVals l a)

/-- `(pc.max(0) - pc.min(0)).max()`: the largest per-axis extent. -/
def maxExtent (pc : List Pt3) : ℚ :=
  max (extentAxis pc 0) (max (extentAxis pc 1) (extentAxis pc 2))

namespace SemsegAugmentation

/-- Sub-configuration `cfg['points']` of `normalize` (a Python dict with
optional keys `recentering` and `method`; `none` models an absent key). -/
structure NormPointsCfg where
  recentering : Option Bool
  method : Option String
deriving DecidableEq

/-- Sub-configuration `cfg['feat']` of `normalize`. -/
structure NormFeatCfg where
  recentering : Option Bool
  method : Option String
  bias : Option ℚ
  scale : Option ℚ
deriving DecidableEq

/-- Configuration of `normalize`: optional `points` and `feat` keys. -/
structure NormalizeCfg where
  points : Option NormPointsCfg
  feat : Option NormFeatCfg

/-- The sample dictionary of the segmentation pipeline: `data['point']`
(an `N×3` array) and `data['feat']` (an `N×F` array or `None`). -/
structure SemsegData (F : ℕ) where
  point : List Pt3
  feat : Option (List (Fin F → ℚ))

/-- The `points` branch of `SemsegAugmentation.normalize` (source lines
13–22): optional recentering, then — when `method` (default `'linear'`)
is `'linear'` — subtract the mean and divide by the largest extent. -/
def normalizePC (pc : List Pt3) (cfgp : NormPointsCfg) : List Pt3 :=
  let pc1 := if cfgp.recentering.getD false then recenter pc else pc
  if cfgp.method.getD "linear" = "linear" then
    let pc2 := recenter pc1
    let E := maxExtent pc2
    pc2.map (fun p a => p a / E)
  else pc1

/-- The `feat` branch of `SemsegAugmentation.normalize` (source lines
24–35): optional recentering, then — when `method` (default `'linear'`)
is `'linear'` — subtract `bias` (default 0) and divide by `scale`
(default 1). -/
def normalizeFeat {F : ℕ} (feat : List (Fin F → ℚ)) (cfgf : NormFeatCfg) :
    List (Fin F → ℚ) :=
  let f1 := if cfgf.recentering.getD false then recenter feat else feat
  if cfgf.method.getD "linear" = "linear" then
    let bias := cfgf.bias.getD 0
    let scale := cfgf.scale.getD 1
    f1.map (fun f j => (f j - bias) / scale)
  else f1

/-- `SemsegAugmentation.normalize` (source lines 11–37): handle the
`points` key if present, then the `feat` key if present and the data's
feature array is not `None`. -/
def normalize {F : ℕ} (data : SemsegData F) (cfg : NormalizeCfg) :
    SemsegData F :=
  let d1 := match cfg.points with
    | some cfgp => { data with point := normalizePC data.point cfgp }
    | none => data
  match cfg.feat, d1.feat with
  | some cfgf, some feat => { d1 with feat := some (normalizeFeat feat cfgf) }
  | _, _ => d1

/-- Configuration of `rotate`: the optional `method` key. -/
structure RotateCfg where
  method : Option String
deriving DecidableEq

/-- Randomness consumed by the segmentation transforms.  `rotc`/`rots`
stand for `cos θ`/`sin θ` of the random vertical angle; `rotAll` is the
matrix produced by the external `create_3D_rotations` collaborator for
`method = 'all'`; `scaleU`/`scaleU3` are the `np.random.rand` draws of
`scale`; `gauss i` is row `i` of the `np.random.randn(N, 3)` draw of
`noise`. -/
structure SemsegRand where
  rotc : ℚ
  rots : ℚ
  rotAll : Matrix (Fin 3) (Fin 3) ℚ
  scaleU : ℚ
  scaleU3 : Fin 3 → ℚ
  gauss : ℕ → Pt3

/-- The rotation matrix `R` built by `SemsegAugmentation.rotate` (source
lines 40–72): identity unless `method` is `'vertical'` or `'all'`. -/
def rotationMatrix (cfg : RotateCfg) (r : SemsegRand) :
    Matrix (Fin 3) (Fin 3) ℚ :=
  if cfg.method = some "vertical" then
    !![r.rotc, -r.rots, 0; r.rots, r.rotc, 0; 0, 0, 1]
  else if cfg.method = some "all" then
    r.rotAll
  else
    1

/-- `SemsegAugmentation.rotate` (source lines 39–74): `np.matmul(pc, R)`,
i.e. every row `p` becomes the row-vector product `p ⬝ R`. -/
def rotate (pc : List Pt3) (cfg : RotateCfg) (r : SemsegRand) : List Pt3 :=
  pc.map (fun p => Matrix.vecMul p (rotationMatrix cfg r))

/-- Configuration of `scale`. -/
structure ScaleCfg where
  scale_anisotropic : Option Bool
  min_s : Option ℚ
  max_s : Option ℚ
deriving DecidableEq

/-- `SemsegAugmentation.scale` (source lines 76–89): one random factor in
`[min_s, max_s]` per axis (anisotropic) or a single scalar factor. -/
def scale (pc : List Pt3) (cfg : ScaleCfg) (r : SemsegRand) : List Pt3 :=
  let min_s := cfg.min_s.getD 1
  let max_s := cfg.max_s.getD 1
  if cfg.scale_anisotropic.getD false then
    let s : Fin 3 → ℚ := fun a => r.scaleU3 a * (max_s - min_s) + min_s
    pc.map (fun p a => p a * s a)
  else
    let s := r.scaleU * (max_s - min_s) + min_s
    pc.map (fun p a => p a * s)

/-- Configuration of `noise`. -/
structure NoiseCfg where
  noise_level : Option ℚ
deriving DecidableEq

/-- `SemsegAugmentation.noise` (source lines 91–97): add
`randn(N, 3) * noise_level` to the cloud. -/
def noise (pc : List Pt3) (cfg : NoiseCfg) (r : SemsegRand) : List Pt3 :=
  let lvl := cfg.noise_level.getD (1 / 1000)
  pc.mapIdx (fun i p => fun a => p a + r.gauss i a * lvl)

/-- Configuration of the segmentation `augment` pipeline: one optional key
per transform. -/
structure AugmentCfg where
  normalize : Option NormalizeCfg
  rotate : Option RotateCfg
  scale : Option ScaleCfg
  noise : Option NoiseCfg

/-- `SemsegAugmentation.augment` (source lines 99–110), as the state
transformation it performs on the caller's sample: each transform runs
only when its key is present, in the source's order
normalize → rotate → scale → noise, each reading the previous output. -/
def augment {F : ℕ} (data : SemsegData F) (cfg : AugmentCfg)
    (r : SemsegRand) : SemsegData F :=
  let d1 := match cfg.normalize with
    | some c => normalize data c
    | none => data
  let d2 := match cfg.rotate with
    | some c => { d1 with point := rotate d1.point c r }
    | none => d1
  let d3 := match cfg.scale with
    | some c => { d2 with point := scale d2.point c r }
    | none => d2
  match cfg.noise with
  | some c => { d3 with point := noise d3.point c r }
  | none => d3

/-- Spec-side step: apply `normalize` iff the `normalize` key is present
(spec §4.5, "only for keys present"). -/
def normalizeStep {F : ℕ} (cfg : AugmentCfg) (d : SemsegData F) :
    SemsegData F :=
  match cfg.normalize with
  | some c => normalize d c
  | none => d

/-- Spec-side step: apply `rotate` iff the `rotate` key is present. -/
def rotateStep {F : ℕ} (cfg : AugmentCfg) (r : SemsegRand)
    (d : SemsegData F) : SemsegData F :=
  match cfg.rotate with
  | some c => { d with point := rotate d.point c r }
  | none => d

/-- Spec-side step: apply `scale` iff the `scale` key is present. -/
def scaleStep {F : ℕ} (cfg : AugmentCfg) (r : SemsegRand)
    (d : SemsegData F) : SemsegData F :=
  match cfg.scale with
  | some c => { d with point := scale d.point c r }
  | none => d

/-- Spec-side step: apply `noise` iff the `noise` key is present. -/
def noiseStep {F : ℕ} (cfg : AugmentCfg) (r : SemsegRand)
    (d : SemsegData F) : SemsegData F :=
  match cfg.noise with
  | some c => { d with point := noise d.point c r }
  | none => d

/-- The degenerate cloud of claim C7: two identical points, so every
per-axis extent is zero. -/
def degeneratePC : List Pt3 := [![1, 2, 3], ![1, 2, 3]]

/-- The concrete cloud of the C6 witness: extents `(2, 1, 0)`. -/
def c6pc : List Pt3 := [![0, 0, 0], ![2, 1, 0]]

end SemsegAugmentation

/-- `BoundingBox3D` of `ml3d/vis/boundingbox.py`: a labelled oriented box
with center, three axis vectors (front/up/left), per-axis sizes and a
class label.  The `points_inside_box` field is the point subset the donor
database attaches to each candidate box (spec §3, read by
`ObjectSample`); display-only fields (confidence, meta, identifier, …)
are omitted. -/
structure BoundingBox3D where
  center : Pt3
  front : Pt3
  up : Pt3
  left : Pt3
  size : Pt3
  label_class : String
  points_inside_box : List Pt3
deriving DecidableEq

/-- The rotation block `transform[:3, :3]` of a homogeneous 4×4 matrix. -/
def rotPart (T : Matrix (Fin 4) (Fin 4) ℚ) : Matrix (Fin 3) (Fin 3) ℚ :=
  fun i j => T i.castSucc j.castSucc

/-- The translation row `transform[3, :3]` of a homogeneous 4×4 matrix. -/
def transPart (T : Matrix (Fin 4) (Fin 4) ℚ) : Pt3 :=
  fun j => T 3 j.castSucc

/-- `BoundingBox3D.transform` (source lines 85–98): right-multiply center
and axes by `transform[:3, :3]` and add `transform[3, :3]` to the
center. -/
def BoundingBox3D.transform (b : BoundingBox3D)
    (T : Matrix (Fin 4) (Fin 4) ℚ) : BoundingBox3D :=
  { b with
    center := Matrix.vecMul b.center (rotPart T) + transPart T
    front := Matrix.vecMul b.front (rotPart T)
    up := Matrix.vecMul b.up (rotPart T)
    left := Matrix.vecMul b.left (rotPart T) }

/-- Modelled from the spec: the box point-inside predicate (§3: "returning
indices … of an arbitrary point set that lie within its oriented volume").
The source `BoundingBox3D.inside` delegates to the external
`open3d.geometry.OrientedBoundingBox` built with axes `(left, front, up)`
and extents `size`; a point is inside when each axis coordinate of the
offset from the center is at most half the corresponding extent. -/
def BoundingBox3D.insideBox (b : BoundingBox3D) (p : Pt3) : Bool :=
  let q : Pt3 := fun a => p a - b.center a
  decide (|Matrix.dotProduct q b.left| ≤ b.size 0 / 2) &&
    decide (|Matrix.dotProduct q b.front| ≤ b.size 1 / 2) &&
      decide (|Matrix.dotProduct q b.up| ≤ b.size 2 / 2)

/-- Modelled from the spec: `remove_points_in_boxes` (spec §4.8 step 3,
"remove from the original point cloud any point that falls inside any
sampled box's volume"; the source function lives in
`ml3d/datasets/utils/operations.py`, outside `src/`). -/
def remove_points_in_boxes (points : List Pt3)
    (boxes : List BoundingBox3D) : List Pt3 :=
  points.filter (fun p => !(boxes.any (fun b => b.insideBox p)))

/-- A concrete rigid homogeneous transform for the C9 witness: rotation
by 90° about the vertical axis followed by translation `(5, 6, 7)`. -/
def rigT : Matrix (Fin 4) (Fin 4) ℚ :=
  !![0, 1, 0, 0; -1, 0, 0, 0; 0, 0, 1, 0; 5, 6, 7, 1]

namespace ObjdetAugmentation

/-- Detection sample dictionary: `point`, `bbox_objs`, and an opaque
calibration payload `calib` (spec §3). -/
structure Sample (α : Type) where
  point : List Pt3
  bbox_objs : List BoundingBox3D
  calib : α
deriving DecidableEq

/-- The hardcoded `rate = 1.0` of `ObjectSample` (source line 140). -/
def rate : ℚ := 1

/-- `np.sum([n == class_name for n in gt_labels_3d])` (source line
151): how many scene labels equal the class name. -/
def countExisting (gt_labels : List String) (cn : String) : ℕ :=
  gt_labels.count cn

/-- Lines 152–153 of the source: `sampled_num = int(target - existing)`
then `np.round(rate * sampled_num)` cast back to an integer. -/
def sampledNumFor (gt_labels : List String) (cn : String) (target : ℤ) : ℤ :=
  round (rate * ((target - (countExisting gt_labels cn : ℤ) : ℤ) : ℚ))

/-- The `sample_class` collaborator (spec §6:
`sample_class(name, count, existing_boxes, donor_pool) -> list[Box]`),
kept abstract: the spec delegates the draw policy to it. -/
abbrev SampleClassFn : Type :=
  String → ℤ → List BoundingBox3D → List BoundingBox3D → List BoundingBox3D

/-- The sampling loop of `ObjectSample` (source lines 156–165), iterating
over the per-class sampled counts in order.  A negative count skips the
class before the donor lookup; a class whose donor pool is missing from
`db_boxes_dict` raises a `KeyError` (modelled as `.error`).  Returns the
request log (the `(class, count)` pairs passed to `sample_class`), the
accumulated `sampled` list and the final working box list. -/
def sampleLoop (db : String → Option (List BoundingBox3D))
    (sc : SampleClassFn) :
    List (String × ℤ) → List BoundingBox3D →
      Except String (List (String × ℤ) × List BoundingBox3D × List BoundingBox3D)
  | [], bboxes => .ok ([], [], bboxes)
  | (cn, n) :: rest, bboxes =>
    if n < 0 then sampleLoop db sc rest bboxes
    else
      match db cn with
      | none => .error ("KeyError: " ++ cn)
      | some pool =>
        let cls := sc cn n bboxes pool
        match sampleLoop db sc rest (bboxes ++ cls) with
        | .error e => .error e
        | .ok (reqs, sampled, out) => .ok ((cn, n) :: reqs, cls ++ sampled, out)

/-- `ObjdetAugmentation.ObjectSample` (source lines 138–173),
instrumented to also return the request log and the sampled boxes.
`sample_dict` models the items of the Python target-spec dict (keys
distinct, insertion order); `db` models `db_boxes_dict` as a partial
lookup.  When at least one box was sampled, the donated points are
concatenated in front of the original cloud with points inside any
sampled box removed. -/
def ObjectSampleAux {α : Type} (data : Sample α)
    (db : String → Option (List BoundingBox3D)) (sc : SampleClassFn)
    (sample_dict : List (String × ℤ)) :
    Except String (List (String × ℤ) × List BoundingBox3D × Sample α) :=
  let gt_labels := data.bbox_objs.map (fun b => b.label_class)
  let nums := sample_dict.map (fun e => (e.1, sampledNumFor gt_labels e.1 e.2))
  match sampleLoop db sc nums data.bbox_objs with
  | .error e => .error e
  | .ok (reqs, sampled, bboxes) =>
    let points :=
      if sampled.isEmpty then data.point
      else
        (sampled.map (fun b => b.points_inside_box)).flatten ++
          remove_points_in_boxes data.point sampled
    .ok (reqs, sampled, ⟨points, bboxes, data.calib⟩)

/-- `ObjdetAugmentation.ObjectSample` proper: the returned sample. -/
def ObjectSample {α : Type} (data : Sample α)
    (db : String → Option (List BoundingBox3D)) (sc : SampleClassFn)
    (sample_dict : List (String × ℤ)) : Except String (Sample α) :=
  (ObjectSampleAux data db sc sample_dict).map (fun r => r.2.2)

/-- A unit box labelled `"Car"` used by concrete witnesses: centered at
the origin with the standard axes and sizes `(2, 2, 2)`. -/
def carBox : BoundingBox3D :=
  { center := ![0, 0, 0], front := ![0, 1, 0], up := ![0, 0, 1],
    left := ![1, 0, 0], size := ![2, 2, 2], label_class := "Car",
    points_inside_box := [] }

/-- A donor `"Car"` box with one donated point at the origin. -/
def donorBox : BoundingBox3D :=
  { carBox with points_inside_box := [![0, 0, 0]] }

/-- Witness scene for C2's counterexample: two existing `"Car"` boxes and
no points. -/
def sceneTwoCars : Sample Unit := ⟨[], [carBox, carBox], ()⟩

/-- Witness scene for C3: no boxes; one point inside the donor box's
volume and one far outside. -/
def sceneTwoPoints : Sample Unit := ⟨[![1, 0, 0], ![5, 5, 5]], [], ()⟩

/-- Donor database for the C3 witness: only the class `"Car"`. -/
def dbCarOnly : String → Option (List BoundingBox3D) :=
  fun cn => if cn = "Car" then some [donorBox] else none

/-- `sample_class` stub returning the donor box regardless of input. -/
def scDonor : SampleClassFn := fun _ _ _ _ => [donorBox]

/-- `sample_class` stub returning no boxes. -/
def scEmpty : SampleClassFn := fun _ _ _ _ => []

/-- The sample returned in the C3 witness scenario: the donated origin
point followed by the surviving far point, with the donor box added. -/
def c3out : Sample Unit := ⟨[![0, 0, 0], ![5, 5, 5]], [donorBox], ()⟩

end ObjdetAugmentation

/-! ## Helper lemmas on list folds -/

theorem foldl_max_map_sub (xs : List ℚ) (c : ℚ) : ∀ a : ℚ,
    (xs.map (fun x => x - c)).foldl max (a - c) = xs.foldl max a - c := by
  induction xs with
  | nil => intro a; rfl
  | cons y ys ih =>
    intro a
    simpa only [List.map_cons, List.foldl_cons, max_sub_sub_right] using ih (max a y)

theorem foldl_min_map_sub (xs : List ℚ) (c : ℚ) : ∀ a : ℚ,
    (xs.map (fun x => x - c)).foldl min (a - c) = xs.foldl min a - c := by
  induction xs with
  | nil => intro a; rfl
  | cons y ys ih =>
    intro a
    simpa only [List.map_cons, List.foldl_cons, min_sub_sub_right] using ih (min a y)

theorem foldl_max_map_div (xs : List ℚ) {c : ℚ} (hc : 0 ≤ c) : ∀ a : ℚ,
    (xs.map (fun x => x / c)).foldl max (a / c) = xs.foldl max a / c := by
  induction xs with
  | nil => intro a; rfl
  | cons y ys ih =>
    intro a
    simpa only [List.map_cons, List.foldl_cons, max_div_div_right hc] using ih (max a y)

theorem foldl_min_map_div (xs : List ℚ) {c : ℚ} (hc : 0 ≤ c) : ∀ a : ℚ,
    (xs.map (fun x => x / c)).foldl min (a / c) = xs.foldl min a / c := by
  induction xs with
  | nil => intro a; rfl
  | cons y ys ih =>
    intro a
    simpa only [List.map_cons, List.foldl_cons, min_div_div_right hc] using ih (min a y)

theorem vmax_map_sub {l : List ℚ} (h : l ≠ []) (c : ℚ) :
    vmax (l.map (fun x => x - c)) = vmax l - c := by
  cases l with
  | nil => exact absurd rfl h
  | cons x xs => simpa [vmax] using foldl_max_map_sub xs c x

theorem vmin_map_sub {l : List ℚ} (h : l ≠ []) (c : ℚ) :
    vmin (l.map (fun x => x - c)) = vmin l - c := by
  cases l with
  | nil => exact absurd rfl h
  | cons x xs => simpa [vmin] using foldl_min_map_sub xs c x

theorem vmax_map_div {l : List ℚ} (h : l ≠ []) {c : ℚ} (hc : 0 ≤ c) :
    vmax (l.map (fun x => x / c)) = vmax l / c := by
  cases l with
  | nil => exact absurd rfl h
  | cons x xs => simpa [vmax] using foldl_max_map_div xs hc x

theorem vmin_map_div {l : List ℚ} (h : l ≠ []) {c : ℚ} (hc : 0 ≤ c) :
    vmin (l.map (fun x => x / c)) = vmin l / c := by
  cases l with
  | nil => exact absurd rfl h
  | cons x xs => simpa [vmin] using foldl_min_map_div xs hc x

theorem le_foldl_max (xs : List ℚ) : ∀ a : ℚ, a ≤ xs.foldl max a := by
  induction xs with
  | nil => intro a; exact le_refl a
  | cons y ys ih => intro a; exact le_trans (le_max_left a y) (ih (max a y))

theorem foldl_min_le (xs : List ℚ) : ∀ a : ℚ, xs.foldl min a ≤ a := by
  induction xs with
  | nil => intro a; exact le_refl a
  | cons y ys ih => intro a; exact le_trans (ih (min a y)) (min_le_left a y)

theorem vmin_le_vmax {l : List ℚ} (h : l ≠ []) : vmin l ≤ vmax l := by
  cases l with
  | nil => exact absurd rfl h
  | cons x xs => exact le_trans (foldl_min_le xs x) (le_foldl_max xs x)

theorem sum_map_sub (xs : List ℚ) (c : ℚ) :
    (xs.map (fun x => x - c)).sum = xs.sum - xs.length * c := by
  induction xs with
  | nil => simp
  | cons y ys ih =>
    simp only [List.map_cons, List.sum_cons, ih, List.length_cons]
    push_cast
    ring

theorem sum_map_div (xs : List ℚ) (c : ℚ) :
    (xs.map (fun x => x / c)).sum = xs.sum / c := by
  induction xs with
  | nil => simp
  | cons y ys ih => simp only [List.map_cons, List.sum_cons, ih, add_div]

namespace NormalizeFacts

theorem axisVals_ne_nil {d : ℕ} {l : List (Fin d → ℚ)} (h : l ≠ [])
    (a : Fin d) : axisVals l a ≠ [] := by
  simpa [axisVals] using h

theorem axisVals_length {d : ℕ} (l : List (Fin d → ℚ)) (a : Fin d) :
    (axisVals l a).length = l.length := by
  simp [axisVals]

theorem axisVals_recenter {d : ℕ} (l : List (Fin d → ℚ)) (a : Fin d) :
    axisVals (recenter l) a = (axisVals l a).map (fun x => x - meanAxis l a) := by
  simp [axisVals, recenter]

theorem recenter_length {d : ℕ} (l : List (Fin d → ℚ)) :
    (recenter l).length = l.length := by
  simp [recenter]

theorem recenter_ne_nil {d : ℕ} {l : List (Fin d → ℚ)} (h : l ≠ []) :
    recenter l ≠ [] := by
  simpa [recenter] using h

theorem extentAxis_recenter {d : ℕ} {l : List (Fin d → ℚ)} (h : l ≠ [])
    (a : Fin d) : extentAxis (recenter l) a = extentAxis l a := by
  rw [extentAxis, axisVals_recenter,
    vmax_map_sub (axisVals_ne_nil h a), vmin_map_sub (axisVals_ne_nil h a)]
  rw [extentAxis]
  ring

theorem maxExtent_recenter {pc : List Pt3} (h : pc ≠ []) :
    maxExtent (recenter pc) = maxExtent pc := by
  simp [maxExtent, extentAxis_recenter h]

theorem meanAxis_recenter {d : ℕ} {l : List (Fin d → ℚ)} (h : l ≠ [])
    (a : Fin d) : meanAxis (recenter l) a = 0 := by
  have hn : (l.length : ℚ) ≠ 0 := by
    exact_mod_cast fun hc => h (List.length_eq_zero.mp (by exact_mod_cast hc))
  rw [meanAxis, axisVals_recenter, sum_map_sub, recenter_length,
    axisVals_length, meanAxis]
  field_simp

theorem axisVals_map_div {d : ℕ} (l : List (Fin d → ℚ)) (c : ℚ) (a : Fin d) :
    axisVals (l.map (fun p b => p b / c)) a = (axisVals l a).map (fun x => x / c) := by
  simp [axisVals]

theorem extentAxis_map_div {d : ℕ} {l : List (Fin d → ℚ)} (h : l ≠ [])
    {c : ℚ} (hc : 0 ≤ c) (a : Fin d) :
    extentAxis (l.map (fun p b => p b / c)) a = extentAxis l a / c := by
  rw [extentAxis, axisVals_map_div,
    vmax_map_div (axisVals_ne_nil h a) hc, vmin_map_div (axisVals_ne_nil h a) hc,
    extentAxis, sub_div]

theorem meanAxis_map_div {d : ℕ} (l : List (Fin d → ℚ)) (c : ℚ) (a : Fin d) :
    meanAxis (l.map (fun p b => p b / c)) a = meanAxis l a / c := by
  rw [meanAxis, axisVals_map_div, sum_map_div, List.length_map, meanAxis,
    div_right_comm]

theorem extentAxis_nonneg {d : ℕ} {l : List (Fin d → ℚ)} (h : l ≠ [])
    (a : Fin d) : 0 ≤ extentAxis l a :=
  sub_nonneg.mpr (vmin_le_vmax (axisVals_ne_nil h a))

theorem maxExtent_nonneg {pc : List Pt3} (h : pc ≠ []) : 0 ≤ maxExtent pc :=
  le_trans (extentAxis_nonneg h 0) (le_max_left _ _)

/-- Core property of the linear branch `pc -= pc.mean(0); pc /= extent`:
the axis that realised the largest extent ends with range exactly 1, and
every per-axis mean ends exactly 0. -/
theorem linearized_props (l : List Pt3) (a : Fin 3) (hne : l ≠ [])
    (hE : maxExtent l ≠ 0) (ha : extentAxis l a = maxExtent l) :
    extentAxis ((recenter l).map
        (fun p b => p b / maxExtent (recenter l))) a = 1 ∧
    ∀ b, meanAxis ((recenter l).map
        (fun p b => p b / maxExtent (recenter l))) b = 0 := by
  have hrne : recenter l ≠ [] := recenter_ne_nil hne
  have hEr : maxExtent (recenter l) = maxExtent l := maxExtent_recenter hne
  have hc : 0 ≤ maxExtent (recenter l) := hEr ▸ maxExtent_nonneg hne
  constructor
  · rw [extentAxis_map_div hrne hc, extentAxis_recenter hne, ha, hEr,
      div_self hE]
  · intro b
    rw [meanAxis_map_div, meanAxis_recenter hne, zero_div]

end NormalizeFacts

/-! ## Claims about the segmentation pipeline -/

namespace SemsegAugmentation

open NormalizeFacts

/-- C5: when the rotation configuration specifies no method or an
unrecognized method, the rotation matrix `R` is the identity and `rotate`
returns the point cloud unchanged; no error is raised. -/
theorem rotate_unrecognized_id (pc : List Pt3) (cfg : RotateCfg)
    (r : SemsegRand) (h1 : cfg.method ≠ some "vertical")
    (h2 : cfg.method ≠ some "all") :
    rotationMatrix cfg r = 1 ∧ rotate pc cfg r = pc := by
  have hR : rotationMatrix cfg r = 1 := by
    simp [rotationMatrix, h1, h2]
  exact ⟨hR, by simp [rotate, hR, Matrix.vecMul_one]⟩

/-- Witness for C5 at an unrecognized method and a concrete cloud. -/
theorem rotate_unrecognized_id_witness :
    (⟨some "bogus"⟩ : RotateCfg).method ≠ some "vertical" ∧
    rotate [![1, 2, 3]] ⟨some "bogus"⟩
        ⟨0, 0, 1, 0, (fun _ => 0), (fun _ _ => 0)⟩ = [![1, 2, 3]] :=
  ⟨by decide,
    (rotate_unrecognized_id [![1, 2, 3]] ⟨some "bogus"⟩
      ⟨0, 0, 1, 0, (fun _ => 0), (fun _ _ => 0)⟩ (by decide) (by decide)).2⟩

/-- C8: `augment` equals the sequential composition of the four
key-conditioned steps, in the fixed order normalize → rotate → scale →
noise, each reading the previous step's output; a step whose key is
absent is the identity. -/
theorem augment_pipeline_order {F : ℕ} (data : SemsegData F)
    (cfg : AugmentCfg) (r : SemsegRand) :
    augment data cfg r =
        noiseStep cfg r (scaleStep cfg r (rotateStep cfg r
          (normalizeStep cfg data))) ∧
    normalizeStep ⟨none, cfg.rotate, cfg.scale, cfg.noise⟩ data = data ∧
    rotateStep ⟨cfg.normalize, none, cfg.scale, cfg.noise⟩ r data = data ∧
    scaleStep ⟨cfg.normalize, cfg.rotate, none, cfg.noise⟩ r data = data ∧
    noiseStep ⟨cfg.normalize, cfg.rotate, cfg.scale, none⟩ r data = data :=
  ⟨rfl, rfl, rfl, rfl, rfl⟩

/-- C10: a `points` sub-configuration with no `method` key behaves as
`method = 'linear'` (the default): the cloud is still recentered and
divided by the largest per-axis extent. -/
theorem normalize_default_linear {F : ℕ} (data : SemsegData F) :
    normalize data ⟨some ⟨none, none⟩, none⟩ =
        normalize data ⟨some ⟨none, some "linear"⟩, none⟩ ∧
    (normalize data ⟨some ⟨none, none⟩, none⟩).point =
        (recenter data.point).map
          (fun p a => p a / maxExtent (recenter data.point)) :=
  ⟨rfl, rfl⟩

/-- C7 (code bug): on a zero-extent cloud, linear normalization reaches
the division with a zero divisor and still returns normally — there is no
guard and no error path in the source (`pc /= 0` in numpy emits only a
RuntimeWarning and yields NaN/Inf that propagate; in this exact-ℚ model
the unguarded division by zero yields the zero cloud). -/
theorem normalize_zero_extent_silent :
    maxExtent (recenter degeneratePC) = 0 ∧
    (normalize (F := 0) ⟨degeneratePC, none⟩
        ⟨some ⟨none, some "linear"⟩, none⟩).point.length = 2 ∧
    ∀ p ∈ (normalize (F := 0) ⟨degeneratePC, none⟩
        ⟨some ⟨none, some "linear"⟩, none⟩).point, ∀ a, p a = 0 := by
  refine ⟨?_, ?_, ?_⟩
  · norm_num [maxExtent, extentAxis, recenter, meanAxis, axisVals, vmax, vmin,
      degeneratePC]
  · norm_num [normalize, normalizePC, recenter, degeneratePC]
  · norm_num [normalize, normalizePC, recenter, meanAxis, axisVals, maxExtent,
      extentAxis, vmax, vmin, degeneratePC]

/-- C6: for a nonempty point cloud whose largest per-axis extent is
nonzero, `normalize` with `method = 'linear'` on the `points` key yields
a cloud whose range on any axis realising the largest original extent is
exactly 1, and whose per-axis mean is exactly 0 (in exact arithmetic)
whether or not recentering was additionally requested. -/
theorem normalize_linear_range_mean {F : ℕ} (pc : List Pt3)
    (rec : Option Bool) (a : Fin 3) (hne : pc ≠ [])
    (hE : maxExtent pc ≠ 0) (ha : extentAxis pc a = maxExtent pc) :
    extentAxis ((normalize (F := F) ⟨pc, none⟩
        ⟨some ⟨rec, some "linear"⟩, none⟩).point) a = 1 ∧
    ∀ b, meanAxis ((normalize (F := F) ⟨pc, none⟩
        ⟨some ⟨rec, some "linear"⟩, none⟩).point) b = 0 := by
  have hpoint : (normalize (F := F) ⟨pc, none⟩
      ⟨some ⟨rec, some "linear"⟩, none⟩).point
        = normalizePC pc ⟨rec, some "linear"⟩ := rfl
  rw [hpoint]
  by_cases hrec : rec.getD false = true
  · have hpc1 : normalizePC pc ⟨rec, some "linear"⟩ =
        (recenter (recenter pc)).map
          (fun p b => p b / maxExtent (recenter (recenter pc))) := by
      simp [normalizePC, hrec]
    rw [hpc1]
    exact linearized_props (recenter pc) a (recenter_ne_nil hne)
      (by rwa [maxExtent_recenter hne])
      (by rw [extentAxis_recenter hne, maxExtent_recenter hne]; exact ha)
  · have hpc1 : normalizePC pc ⟨rec, some "linear"⟩ =
        (recenter pc).map (fun p b => p b / maxExtent (recenter pc)) := by
      simp [normalizePC, hrec]
    rw [hpc1]
    exact linearized_props pc a hne hE ha

/-- Witness for C6: the largest extent of `c6pc` is realised on axis 0
and is 2 ≠ 0; after linear normalization with recentering, axis 0 has
range 1 and all means are 0. -/
theorem normalize_linear_range_mean_witness :
    c6pc ≠ [] ∧ maxExtent c6pc ≠ 0 ∧ extentAxis c6pc 0 = maxExtent c6pc ∧
    (extentAxis ((normalize (F := 0) ⟨c6pc, none⟩
        ⟨some ⟨some true, some "linear"⟩, none⟩).point) 0 = 1 ∧
     ∀ b, meanAxis ((normalize (F := 0) ⟨c6pc, none⟩
        ⟨some ⟨some true, some "linear"⟩, none⟩).point) b = 0) :=
  ⟨by simp [c6pc],
   by norm_num [maxExtent, extentAxis, axisVals, vmax, vmin, c6pc],
   by norm_num [maxExtent, extentAxis, axisVals, vmax, vmin, c6pc],
   normalize_linear_range_mean c6pc (some true) 0 (by simp [c6pc])
     (by norm_num [maxExtent, extentAxis, axisVals, vmax, vmin, c6pc])
     (by norm_num [maxExtent, extentAxis, axisVals, vmax, vmin, c6pc])⟩

end SemsegAugmentation

/-! ## Claims about ground-truth object sampling -/

namespace ObjdetAugmentation

/-- In an association list with distinct keys, a key determines its
value. -/
theorem nodup_keys_eq {β : Type} :
    ∀ (l : List (String × β)), (l.map Prod.fst).Nodup →
      ∀ {a : String} {b c : β}, (a, b) ∈ l → (a, c) ∈ l → b = c := by
  intro l
  induction l with
  | nil => intro _ a b c hb; exact absurd hb (List.not_mem_nil _)
  | cons x rest ih =>
    intro hnd a b c hb hc
    have hx : x.1 ∉ rest.map Prod.fst := (List.nodup_cons.mp (by simpa using hnd)).1
    have hnd' : (rest.map Prod.fst).Nodup := (List.nodup_cons.mp (by simpa using hnd)).2
    rcases List.mem_cons.mp hb with hb1 | hb2 <;>
      rcases List.mem_cons.mp hc with hc1 | hc2
    · rw [← hb1] at hc1; exact (Prod.mk.injEq _ _ _ _).mp hc1.symm |>.2
    · exfalso; apply hx
      rw [← hb1]
      exact List.mem_map.mpr ⟨(a, c), hc2, rfl⟩
    · exfalso; apply hx
      rw [← hc1]
      exact List.mem_map.mpr ⟨(a, b), hb2, rfl⟩
    · exact ih hnd' hb2 hc2

/-- The sampling loop only ever appends to the working box list: on
success, the final box list is the initial one followed by exactly the
sampled boxes. -/
theorem sampleLoop_out (db : String → Option (List BoundingBox3D))
    (sc : SampleClassFn) :
    ∀ (entries : List (String × ℤ)) (bboxes : List BoundingBox3D)
      (reqs : List (String × ℤ)) (sampled out : List BoundingBox3D),
      sampleLoop db sc entries bboxes = .ok (reqs, sampled, out) →
      out = bboxes ++ sampled := by
  intro entries
  induction entries with
  | nil =>
    intro bboxes reqs sampled out h
    simp only [sampleLoop, Except.ok.injEq, Prod.mk.injEq] at h
    obtain ⟨-, hs, ho⟩ := h
    rw [← ho, ← hs, List.append_nil]
  | cons e rest ih =>
    intro bboxes reqs sampled out h
    obtain ⟨cn, n⟩ := e
    simp only [sampleLoop] at h
    split at h
    · exact ih bboxes reqs sampled out h
    · split at h
      · exact absurd h (by simp)
      · split at h
        · exact absurd h (by simp)
        · rename_i r' s' o' heq
          simp only [Except.ok.injEq, Prod.mk.injEq] at h
          obtain ⟨-, hs, ho⟩ := h
          have hrec := ih _ _ _ _ heq
          rw [← ho, hrec, ← hs, List.append_assoc]

/-- On success, the request log is exactly the non-negative entries of
the per-class count list, in order. -/
theorem sampleLoop_reqs (db : String → Option (List BoundingBox3D))
    (sc : SampleClassFn) :
    ∀ (entries : List (String × ℤ)) (bboxes : List BoundingBox3D)
      (reqs : List (String × ℤ)) (sampled out : List BoundingBox3D),
      sampleLoop db sc entries bboxes = .ok (reqs, sampled, out) →
      reqs = entries.filter (fun e => 0 ≤ e.2) := by
  intro entries
  induction entries with
  | nil =>
    intro bboxes reqs sampled out h
    simp only [sampleLoop, Except.ok.injEq, Prod.mk.injEq] at h
    rw [← h.1, List.filter_nil]
  | cons e rest ih =>
    intro bboxes reqs sampled out h
    obtain ⟨cn, n⟩ := e
    simp only [sampleLoop] at h
    split at h
    · rename_i hneg
      have := ih bboxes reqs sampled out h
      rw [this, List.filter_cons]
      simp [not_le.mpr hneg]
    · rename_i hpos
      split at h
      · exact absurd h (by simp)
      · split at h
        · exact absurd h (by simp)
        · rename_i r' s' o' heq
          simp only [Except.ok.injEq, Prod.mk.injEq] at h
          obtain ⟨hr, -, -⟩ := h
          have hrec := ih _ _ _ _ heq
          rw [← hr, hrec, List.filter_cons]
          simp [not_lt.mp hpos]

/-- If some pending entry has a non-negative count and its class is
missing from the donor database, the loop fails with an error. -/
theorem sampleLoop_error (db : String → Option (List BoundingBox3D))
    (sc : SampleClassFn) :
    ∀ (entries : List (String × ℤ)) (bboxes : List BoundingBox3D)
      (cn : String) (n : ℤ), (cn, n) ∈ entries → 0 ≤ n → db cn = none →
      ∃ e, sampleLoop db sc entries bboxes = .error e := by
  intro entries
  induction entries with
  | nil =>
    intro bboxes cn n hmem
    exact absurd hmem (List.not_mem_nil _)
  | cons x rest ih =>
    intro bboxes cn n hmem hn hdb
    obtain ⟨c', n'⟩ := x
    rcases List.mem_cons.mp hmem with h1 | h2
    · injection h1 with hc hn'
      subst hc; subst hn'
      simp only [sampleLoop]
      rw [if_neg (not_lt.mpr hn), hdb]
      exact ⟨_, rfl⟩
    · simp only [sampleLoop]
      by_cases hneg : n' < 0
      · rw [if_pos hneg]
        exact ih bboxes cn n h2 hn hdb
      · rw [if_neg hneg]
        cases hdb' : db c' with
        | none => exact ⟨_, rfl⟩
        | some pool =>
          obtain ⟨e, he⟩ := ih (bboxes ++ sc c' n' bboxes pool) cn n h2 hn hdb
          exact ⟨e, by simp [he]⟩

/-- C1: for every class in the target spec, the count requested from the
donor pool equals `round(rate * (target - existing))` with `rate = 1`,
i.e. exactly `target - existing`; a class with a negative count is never
requested, and existing boxes are never removed (the original box list is
a prefix of the output box list). -/
theorem objectSample_request_counts {α : Type} (data : Sample α)
    (db : String → Option (List BoundingBox3D)) (sc : SampleClassFn)
    (dict : List (String × ℤ)) (cn : String) (t : ℤ)
    (reqs : List (String × ℤ)) (sampled : List BoundingBox3D)
    (out : Sample α)
    (hnd : (dict.map Prod.fst).Nodup) (hmem : (cn, t) ∈ dict)
    (h : ObjectSampleAux data db sc dict = .ok (reqs, sampled, out)) :
    sampledNumFor (data.bbox_objs.map (fun b => b.label_class)) cn t
        = t - countExisting (data.bbox_objs.map (fun b => b.label_class)) cn ∧
    (0 ≤ t - (countExisting (data.bbox_objs.map (fun b => b.label_class)) cn : ℤ) →
      (cn, t - (countExisting (data.bbox_objs.map (fun b => b.label_class)) cn : ℤ))
        ∈ reqs) ∧
    (t - (countExisting (data.bbox_objs.map (fun b => b.label_class)) cn : ℤ) < 0 →
      cn ∉ reqs.map Prod.fst) ∧
    data.bbox_objs <+: out.bbox_objs := by
  have hformula : ∀ s : ℤ,
      sampledNumFor (data.bbox_objs.map (fun b => b.label_class)) cn s
        = s - countExisting (data.bbox_objs.map (fun b => b.label_class)) cn := by
    intro s
    simp [sampledNumFor, rate, one_mul, round_intCast]
  simp only [ObjectSampleAux] at h
  split at h
  · exact absurd h (by simp)
  · rename_i r s bbs heq
    simp only [Except.ok.injEq, Prod.mk.injEq] at h
    obtain ⟨h1, h2, h3⟩ := h
    subst h1; subst h2
    have hreqs := sampleLoop_reqs db sc _ _ _ _ _ heq
    have hout := sampleLoop_out db sc _ _ _ _ _ heq
    refine ⟨hformula t, ?_, ?_, ?_⟩
    · intro hpos
      rw [hreqs]
      refine List.mem_filter.mpr ⟨?_, by simpa using hpos⟩
      exact List.mem_map.mpr ⟨(cn, t), hmem, by simp [hformula t]⟩
    · intro hneg hcontra
      obtain ⟨q, hq, hq1⟩ := List.mem_map.mp hcontra
      rw [hreqs] at hq
      have hq2 : (0:ℤ) ≤ q.2 := by simpa using (List.mem_filter.mp hq).2
      have hqn := List.mem_of_mem_filter hq
      obtain ⟨e', he', hfe⟩ := List.mem_map.mp hqn
      obtain ⟨c'', t'⟩ := e'
      have hc'' : c'' = cn := by
        have h4 : c'' = q.1 := by rw [← hfe]
        rw [h4, hq1]
      have htt : t' = t := nodup_keys_eq dict hnd (hc'' ▸ he') hmem
      have hq2' : q.2 = t -
          (countExisting (data.bbox_objs.map (fun b => b.label_class)) cn : ℤ) := by
        rw [← hfe]
        show sampledNumFor (data.bbox_objs.map (fun b => b.label_class)) c'' t' = _
        rw [hc'', htt, hformula t]
      rw [hq2'] at hq2
      exact absurd hneg (not_lt.mpr hq2)
    · have h5 : out.bbox_objs = data.bbox_objs ++ s := by
        rw [← h3, hout]
      rw [h5]
      exact List.prefix_append _ _

/-- C2 (amended): a class of the target spec whose computed sample count
is non-negative and whose donor pool is missing from the database makes
the whole `ObjectSample` call fail with a key-lookup error. -/
theorem objectSample_missing_class_fails {α : Type} (data : Sample α)
    (db : String → Option (List BoundingBox3D)) (sc : SampleClassFn)
    (dict : List (String × ℤ)) (cn : String) (t : ℤ)
    (hmem : (cn, t) ∈ dict) (hdb : db cn = none)
    (hpos : 0 ≤ sampledNumFor
      (data.bbox_objs.map (fun b => b.label_class)) cn t) :
    ∃ e, ObjectSample data db sc dict = .error e := by
  have hmem' : (cn, sampledNumFor
      (data.bbox_objs.map (fun b => b.label_class)) cn t) ∈
      dict.map (fun e => (e.1, sampledNumFor
        (data.bbox_objs.map (fun b => b.label_class)) e.1 e.2)) :=
    List.mem_map.mpr ⟨(cn, t), hmem, rfl⟩
  obtain ⟨e, he⟩ := sampleLoop_error db sc _ data.bbox_objs cn _ hmem' hpos hdb
  exact ⟨e, by simp [ObjectSample, ObjectSampleAux, he, Except.map]⟩

/-- C3: whenever at least one box is sampled, the returned cloud is the
sampled boxes' donated points followed by the original points with every
point lying inside any sampled box removed; the calibration payload is
unchanged; and any point of the final cloud lying inside a sampled box's
volume is one of the donated points. -/
theorem objectSample_collision_removal {α : Type} (data : Sample α)
    (db : String → Option (List BoundingBox3D)) (sc : SampleClassFn)
    (dict : List (String × ℤ)) (reqs : List (String × ℤ))
    (sampled : List BoundingBox3D) (out : Sample α)
    (h : ObjectSampleAux data db sc dict = .ok (reqs, sampled, out))
    (hne : sampled ≠ []) :
    out.point = (sampled.map (fun b => b.points_inside_box)).flatten ++
        remove_points_in_boxes data.point sampled ∧
    out.calib = data.calib ∧
    ∀ p ∈ out.point, (∃ b ∈ sampled, b.insideBox p = true) →
      ∃ b ∈ sampled, p ∈ b.points_inside_box := by
  simp only [ObjectSampleAux] at h
  split at h
  · exact absurd h (by simp)
  · rename_i r s bbs heq
    simp only [Except.ok.injEq, Prod.mk.injEq] at h
    obtain ⟨h1, h2, h3⟩ := h
    subst h1; subst h2
    have hemp : s.isEmpty = false := by
      cases s with
      | nil => exact absurd rfl hne
      | cons b bs => rfl
    rw [hemp] at h3
    simp only [Bool.false_eq_true, if_false] at h3
    refine ⟨by rw [← h3], by rw [← h3], ?_⟩
    intro p hp hins
    rw [← h3] at hp
    rcases List.mem_append.mp hp with hj | hf
    · obtain ⟨l, hl, hpl⟩ := List.mem_flatten.mp hj
      obtain ⟨b, hb, rfl⟩ := List.mem_map.mp hl
      exact ⟨b, hb, hpl⟩
    · exfalso
      have hpred := List.of_mem_filter hf
      obtain ⟨b, hb, hbp⟩ := hins
      simp only [Bool.not_eq_true', List.any_eq_false] at hpred
      exact absurd hbp (by simp [hpred b hb])

/-- C4: when zero boxes end up sampled, `ObjectSample` returns the
original sample unmodified — same point list, same box list, same
calibration payload. -/
theorem objectSample_zero_sampled {α : Type} (data : Sample α)
    (db : String → Option (List BoundingBox3D)) (sc : SampleClassFn)
    (dict : List (String × ℤ)) (reqs : List (String × ℤ)) (out : Sample α)
    (h : ObjectSampleAux data db sc dict = .ok (reqs, [], out)) :
    out = data ∧ ObjectSample data db sc dict = .ok data := by
  have h0 := h
  simp only [ObjectSampleAux] at h
  split at h
  · exact absurd h (by simp)
  · rename_i r s bbs heq
    simp only [Except.ok.injEq, Prod.mk.injEq] at h
    obtain ⟨h1, h2, h3⟩ := h
    subst h2
    have hbbs : bbs = data.bbox_objs := by
      have := sampleLoop_out db sc _ _ _ _ _ heq
      simpa using this
    have hout : out = data := by
      rw [← h3, hbbs]
      rfl
    refine ⟨hout, ?_⟩
    rw [ObjectSample, h0, hout]
    rfl

/-- Witness for C1: a scene with two existing `"Car"` boxes and a target
of 5 requests exactly `round(1.0 * (5 - 2)) = 3` boxes, and the original
box list survives as a prefix. -/
theorem objectSample_request_counts_witness :
    sampledNumFor (sceneTwoCars.bbox_objs.map (fun b => b.label_class)) "Car" 5
        = 5 - countExisting
            (sceneTwoCars.bbox_objs.map (fun b => b.label_class)) "Car" ∧
    (0 ≤ 5 - (countExisting
        (sceneTwoCars.bbox_objs.map (fun b => b.label_class)) "Car" : ℤ) →
      ("Car", 5 - (countExisting
        (sceneTwoCars.bbox_objs.map (fun b => b.label_class)) "Car" : ℤ))
          ∈ [("Car", (3:ℤ))]) ∧
    (5 - (countExisting
        (sceneTwoCars.bbox_objs.map (fun b => b.label_class)) "Car" : ℤ) < 0 →
      "Car" ∉ [("Car", (3:ℤ))].map Prod.fst) ∧
    sceneTwoCars.bbox_objs <+: sceneTwoCars.bbox_objs :=
  objectSample_request_counts sceneTwoCars dbCarOnly scEmpty [("Car", 5)]
    "Car" 5 [("Car", 3)] [] sceneTwoCars (by simp) (by simp)
    (by
      have hnum : sampledNumFor ["Car", "Car"] "Car" 5 = 3 := by
        norm_num [sampledNumFor, countExisting, rate, round_eq]
      simp [ObjectSampleAux, sampleLoop, hnum, dbCarOnly, scEmpty,
        sceneTwoCars, carBox])

/-- Counterexample to C2 as stated: the class `"Car"` is present in the
target spec and absent from the donor database, yet `ObjectSample`
succeeds, because the computed count `round(1.0 * (1 - 2)) = -1` is
negative and the class is skipped before the donor lookup. -/
theorem objectSample_missing_class_skipped_cex :
    ("Car", (1:ℤ)) ∈ [("Car", (1:ℤ))] ∧
    (fun _ : String => (none : Option (List BoundingBox3D))) "Car" = none ∧
    ObjectSample sceneTwoCars (fun _ => none) scEmpty [("Car", 1)]
      = .ok sceneTwoCars := by
  refine ⟨by simp, rfl, ?_⟩
  have hnum : sampledNumFor ["Car", "Car"] "Car" 1 = -1 := by
    norm_num [sampledNumFor, countExisting, rate, round_eq]
  simp [ObjectSample, ObjectSampleAux, sampleLoop, hnum, sceneTwoCars, carBox,
    Except.map]

/-- Witness for C2 (amended): with no existing `"Car"` box the computed
count is 1 ≥ 0, and a database missing `"Car"` makes the call fail. -/
theorem objectSample_missing_class_fails_witness :
    ∃ e, ObjectSample sceneTwoPoints (fun _ => none) scEmpty [("Car", 1)]
      = .error e :=
  objectSample_missing_class_fails sceneTwoPoints (fun _ => none) scEmpty
    [("Car", 1)] "Car" 1 (by simp) rfl
    (by norm_num [sampledNumFor, countExisting, rate, sceneTwoPoints, round_eq])

/-- Witness for C3: sampling one donor box removes the original point
inside its volume, keeps the far point, prepends the donated point, and
passes the calibration through. -/
theorem objectSample_collision_removal_witness :
    c3out.point = ([donorBox].map (fun b => b.points_inside_box)).flatten ++
        remove_points_in_boxes sceneTwoPoints.point [donorBox] ∧
    c3out.calib = sceneTwoPoints.calib ∧
    ∀ p ∈ c3out.point, (∃ b ∈ [donorBox], b.insideBox p = true) →
      ∃ b ∈ [donorBox], p ∈ b.points_inside_box :=
  objectSample_collision_removal sceneTwoPoints dbCarOnly scDonor
    [("Car", 1)] [("Car", 1)] [donorBox] c3out
    (by
      have hnum : sampledNumFor [] "Car" 1 = 1 := by
        norm_num [sampledNumFor, countExisting, rate, round_eq]
      have hin : donorBox.insideBox ![1, 0, 0] = true := by
        simp only [BoundingBox3D.insideBox, donorBox, carBox,
          Bool.and_eq_true, decide_eq_true_eq]
        norm_num [Matrix.dotProduct, Fin.sum_univ_three, abs_le]
      have hout : donorBox.insideBox ![5, 5, 5] = false := by
        simp only [BoundingBox3D.insideBox, donorBox, carBox,
          Bool.and_eq_true, decide_eq_true_eq]
        norm_num [Matrix.dotProduct, Fin.sum_univ_three, abs_le]
      have hpts : donorBox.points_inside_box = [![0, 0, 0]] := rfl
      simp [ObjectSampleAux, sampleLoop, hnum, dbCarOnly, scDonor,
        sceneTwoPoints, remove_points_in_boxes, hin, hout, hpts, c3out])
    (by simp)

/-- Witness for C4: an empty target spec samples nothing and returns the
original sample unchanged. -/
theorem objectSample_zero_sampled_witness :
    sceneTwoCars = sceneTwoCars ∧
    ObjectSample sceneTwoCars (fun _ => none) scEmpty [] = .ok sceneTwoCars :=
  objectSample_zero_sampled sceneTwoCars (fun _ => none) scEmpty [] []
    sceneTwoCars rfl

end ObjdetAugmentation

/-! ## Claims about `BoundingBox3D.transform` -/

/-- Row-orthonormal matrices preserve the dot product of row-vector
products. -/
theorem vecMul_dotProduct_preserved (R : Matrix (Fin 3) (Fin 3) ℚ)
    (h : R * R.transpose = 1) (u v : Pt3) :
    Matrix.dotProduct (Matrix.vecMul u R) (Matrix.vecMul v R)
      = Matrix.dotProduct u v := by
  rw [← Matrix.dotProduct_mulVec, ← Matrix.mulVec_transpose,
    Matrix.mulVec_mulVec, h, Matrix.one_mulVec]

/-- C9: under a rigid homogeneous transform (orthonormal rotation block
of determinant 1), `BoundingBox3D.transform` keeps the three axes
unit-length and mutually orthogonal, and moves the center by the same
rotation plus the translation row. -/
theorem boundingBox_transform_rigid (b : BoundingBox3D)
    (T : Matrix (Fin 4) (Fin 4) ℚ)
    (hR : rotPart T * (rotPart T).transpose = 1) (hdet : (rotPart T).det = 1)
    (hf : Matrix.dotProduct b.front b.front = 1)
    (hu : Matrix.dotProduct b.up b.up = 1)
    (hl : Matrix.dotProduct b.left b.left = 1)
    (hfu : Matrix.dotProduct b.front b.up = 0)
    (hfl : Matrix.dotProduct b.front b.left = 0)
    (hul : Matrix.dotProduct b.up b.left = 0) :
    Matrix.dotProduct (b.transform T).front (b.transform T).front = 1 ∧
    Matrix.dotProduct (b.transform T).up (b.transform T).up = 1 ∧
    Matrix.dotProduct (b.transform T).left (b.transform T).left = 1 ∧
    Matrix.dotProduct (b.transform T).front (b.transform T).up = 0 ∧
    Matrix.dotProduct (b.transform T).front (b.transform T).left = 0 ∧
    Matrix.dotProduct (b.transform T).up (b.transform T).left = 0 ∧
    (b.transform T).center
      = Matrix.vecMul b.center (rotPart T) + transPart T := by
  refine ⟨?_, ?_, ?_, ?_, ?_, ?_, rfl⟩ <;>
    simp only [BoundingBox3D.transform] <;>
    rw [vecMul_dotProduct_preserved _ hR] <;> assumption

/-- Witness for C9 at the unit `"Car"` box and the rigid transform
`rigT`. -/
theorem boundingBox_transform_rigid_witness :
    Matrix.dotProduct (ObjdetAugmentation.carBox.transform rigT).front
        ((ObjdetAugmentation.carBox.transform rigT)).front = 1 ∧
    Matrix.dotProduct (ObjdetAugmentation.carBox.transform rigT).up
        ((ObjdetAugmentation.carBox.transform rigT)).up = 1 ∧
    Matrix.dotProduct (ObjdetAugmentation.carBox.transform rigT).left
        ((ObjdetAugmentation.carBox.transform rigT)).left = 1 ∧
    Matrix.dotProduct (ObjdetAugmentation.carBox.transform rigT).front
        ((ObjdetAugmentation.carBox.transform rigT)).up = 0 ∧
    Matrix.dotProduct (ObjdetAugmentation.carBox.transform rigT).front
        ((ObjdetAugmentation.carBox.transform rigT)).left = 0 ∧
    Matrix.dotProduct (ObjdetAugmentation.carBox.transform rigT).up
        ((ObjdetAugmentation.carBox.transform rigT)).left = 0 ∧
    (ObjdetAugmentation.carBox.transform rigT).center
      = Matrix.vecMul ObjdetAugmentation.carBox.center (rotPart rigT)
          + transPart rigT := by
  have hRmat : rotPart rigT = !![0, 1, 0; -1, 0, 0; 0, 0, 1] := by
    ext i j
    fin_cases i <;> fin_cases j <;> rfl
  exact boundingBox_transform_rigid ObjdetAugmentation.carBox rigT
    (by
      have hT : (!![0, 1, 0; -1, 0, 0; 0, 0, 1] :
          Matrix (Fin 3) (Fin 3) ℚ).transpose = !![0, -1, 0; 1, 0, 0; 0, 0, 1] := by
        ext i j
        fin_cases i <;> fin_cases j <;> rfl
      rw [hRmat, hT]
      ext i j
      fin_cases i <;> fin_cases j <;>
        simp [Matrix.mul_apply, Fin.sum_univ_three, Matrix.one_apply,
          Matrix.vecHead, Matrix.vecTail])
    (by rw [hRmat, Matrix.det_fin_three]; norm_num)
    (by norm_num [ObjdetAugmentation.carBox, Matrix.dotProduct,
      Fin.sum_univ_three])
    (by norm_num [ObjdetAugmentation.carBox, Matrix.dotProduct,
      Fin.sum_univ_three])
    (by norm_num [ObjdetAugmentation.carBox, Matrix.dotProduct,
      Fin.sum_univ_three])
    (by norm_num [ObjdetAugmentation.carBox, Matrix.dotProduct,
      Fin.sum_univ_three])
    (by norm_num [ObjdetAugmentation.carBox, Matrix.dotProduct,
      Fin.sum_univ_three])
    (by norm_num [ObjdetAugmentation.carBox, Matrix.dotProduct,
      Fin.sum_univ_three])
